import Mathlib

/-!
Verification of the BastionLab server core (chunk codec, frame registry,
challenge service, signed-request check, token interceptor, query facade)
against its specification.  The Rust sources are shallowly embedded: byte
vectors become List Nat, streams become lists of Except-wrapped messages,
mutable state is passed explicitly, and external crates (polars, bincode,
serde_json, jsonwebtoken, the RNG) are passed in as function parameters.
-/

set_option maxRecDepth 8000

deriving instance DecidableEq for Except

namespace BastionLab

/-- Rust tonic gRPC Status values produced by the server (only the
constructors the sources build). -/
inductive Status where
  | invalidArgument (msg : String)
  | permissionDenied (msg : String)
  | notFound (msg : String)
  | unknown (msg : String)
  | internal (msg : String)
deriving DecidableEq

/-- A data frame, represented by the bincode-serialized bytes of each of its
columns; the column serialization itself is done by the external polars /
bincode crates and is opaque to the server code. -/
abbrev Frame := List (List Nat)

/-- The 5-byte column separator b"[end]" of serialization.rs. -/
def pattern : List Nat := [91, 101, 110, 100, 93]

/-- grpc Chunk message as constructed in src/server/src/serialization.rs
(only the data field is populated there). -/
structure Chunk where
  data : List Nat
deriving DecidableEq

/-- df_to_bytes: bincode-serialize every column.  In this model a Frame
already consists of its columns' serialized bytes. -/
def df_to_bytes (df : Frame) : List (List Nat) := df

/-- The byte stream built inside stream_data: every column's bytes followed
by the marker, all concatenated. -/
def encode_bytes (df : Frame) : List Nat :=
  ((df_to_bytes df).map (fun v => v ++ pattern)).flatten

/-- Fuel-indexed version of Rust slice::chunks. -/
def chunks_fuel : Nat → Nat → List Nat → List (List Nat)
  | 0, _, _ => []
  | _ + 1, _, [] => []
  | fuel + 1, k, x :: xs => (x :: xs).take k :: chunks_fuel fuel k ((x :: xs).drop k)

/-- Rust raw_bytes.chunks(chunk_size): cut a byte vector into consecutive
pieces of at most chunk_size bytes (chunk_size is at least 1 everywhere the
source calls it). -/
def chunksOf (k : Nat) (l : List Nat) : List (List Nat) :=
  chunks_fuel l.length k l

/-- stream_data of src/server/src/serialization.rs, modelled as the list of
Chunk messages pushed into the outbound channel in order. -/
def stream_data (df : Frame) (chunk_size : Nat) : List Chunk :=
  (chunksOf chunk_size (encode_bytes df)).map Chunk.mk

/-- The marker-occurrence index list built inside unstream_data: enumerate
all windows of pattern length (5), map a matching window to its index and a
miss to usize::MIN (which is 0), then drop the zeros. -/
def marker_indexes (columns : List Nat) : List Nat :=
  ((List.range (columns.length + 1 - 5)).map
      (fun i => if (columns.drop i).take 5 = pattern then i else 0)).filter
    (fun v => v ≠ 0)

/-- One slice columns[start..end] for an adjacent index pair r: start is
r.1 promoted past the 5 marker bytes unless r.1 is 0. -/
def slice_at (columns : List Nat) (r : Nat × Nat) : List Nat :=
  (columns.drop (if r.1 = 0 then r.1 else r.1 + 5)).take
    (r.2 - (if r.1 = 0 then r.1 else r.1 + 5))

/-- The splitting phase of unstream_data: a 0 is prepended to the marker
indexes and every adjacent pair of the result is sliced. -/
def unstream_core (columns : List Nat) : List (List Nat) :=
  ((0 :: marker_indexes columns).zip (marker_indexes columns)).map
    (slice_at columns)

/-- The chunk-accumulation loop of unstream_data; an Err item of the inbound
stream propagates through the ? operator. -/
def accumulate_chunks : List (Except Status Chunk) → List Nat →
    Except Status (List Nat)
  | [], acc => .ok acc
  | .error e :: _, _ => .error e
  | .ok c :: rest, acc => accumulate_chunks rest (acc ++ c.data)

/-- unstream_data of src/server/src/serialization.rs over a materialized
inbound stream. -/
def unstream_data (stream : List (Except Status Chunk)) :
    Except Status (List (List Nat)) :=
  match accumulate_chunks stream [] with
  | .error e => .error e
  | .ok columns => .ok (unstream_core columns)

/-- df_from_stream of src/server/src/serialization.rs.  bincode
deserialization of a column and DataFrame::new come from external crates and
are passed as parameters; a none result models the panic of the .unwrap()
on bincode::deserialize escaping the function. -/
def df_from_stream (Series : Type)
    (deserialize : List Nat → Option Series)
    (data_frame_new : List Series → Except String Frame)
    (stream : List (Except Status Chunk)) : Option (Except Status Frame) :=
  match unstream_data stream with
  | .error e => some (.error e)
  | .ok df_bytes =>
    match df_bytes.mapM deserialize with
    | none => none
    | some series =>
      match data_frame_new series with
      | .error _ => some (.error (.unknown "Failed to create DataFrame!"))
      | .ok df => some (.ok df)

/-- get_df of src/server/src/main.rs: shared read of the registry. -/
def get_df (dataframes : List (String × Frame)) (identifier : String) :
    Except Status Frame :=
  match dataframes.lookup identifier with
  | some df => .ok df
  | none =>
    .error (.notFound ("Could not find dataframe: identifier=" ++ identifier))

/-- insert_df of src/server/src/main.rs.  The fresh v4 UUID drawn inside the
function is passed in as identifier; HashMap::insert is modelled by consing,
since lookup takes the most recent binding. -/
def insert_df (dataframes : List (String × Frame)) (identifier : String)
    (df : Frame) : List (String × Frame) × String :=
  ((identifier, df) :: dataframes, identifier)

/-- The body of check_challenge once a challenge value is in hand:
HashSet::remove, with PermissionDenied when nothing was removed. -/
def consume_challenge (challenges : List (List Nat)) (c : List Nat) :
    Except Status (List (List Nat)) :=
  if c ∈ challenges then .ok (challenges.erase c)
  else .error (.permissionDenied "Invalid or reused challenge")

/-- new_challenge of src/server/src/main.rs: draw from the CSPRNG (modelled
as the list rng of successive draws) until HashSet::insert succeeds; returns
the challenge and the new set. -/
def new_challenge (challenges : List (List Nat)) :
    List (List Nat) → Option (List Nat × List (List Nat))
  | [] => none
  | r :: rs =>
    if r ∈ challenges then new_challenge challenges rs
    else some (r, r :: challenges)

/-- A ReferenceRequest together with the binary metadata entries of the
request (tonic binary metadata keys end in "-bin"; ascii metadata plays no
part in fetch_data_frame). -/
structure FetchReq where
  identifier : String
  binaryHeaders : List (String × List Nat)
deriving DecidableEq

/-- check_challenge of src/server/src/main.rs: a missing challenge-bin
header passes with the set untouched; a present one must be removable from
the set.  (The base64 step of to_bytes cannot fail in this model, where the
header already carries raw bytes.) -/
def check_challenge (challenges : List (List Nat)) (req : FetchReq) :
    Except Status (List (List Nat)) :=
  match req.binaryHeaders.lookup "challenge-bin" with
  | none => .ok challenges
  | some c => consume_challenge challenges c

/-- Modelled from the spec: KeyManagement lives in access_control.rs, which
is not among the sources.  Per section 4.D it maps key-ids (PEM file stems)
to public keys loaded at startup. -/
structure KeyManagement where
  owners : List String
deriving DecidableEq

/-- Modelled from the spec: KeyManagement::verify_key (access_control.rs,
not among the sources).  Per section 4.D an unknown key-id is rejected; per
section 9 the source checks no signature bytes, so key-id resolution is the
whole check. -/
def verify_key (km : KeyManagement) (key_id : String) : Except Status Unit :=
  if key_id ∈ km.owners then .ok ()
  else .error (.permissionDenied ("Unknown key: " ++ key_id))

/-- Rust str::starts_with over character lists. -/
def starts_with : List Char → List Char → Bool
  | _, [] => true
  | [], _ :: _ => false
  | a :: as, b :: bs => a = b && starts_with as bs

/-- Rust str::contains over character lists. -/
def contains_sub : List Char → List Char → Bool
  | [], pat => pat.isEmpty
  | a :: rest, pat => starts_with (a :: rest) pat || contains_sub rest pat

/-- Rust str::strip_suffix over character lists. -/
def strip_suffix_chars (l pat : List Char) : Option (List Char) :=
  if starts_with l.reverse pat.reverse then some (l.take (l.length - pat.length))
  else none

/-- The suffix after the first occurrence of pat, when pat occurs. -/
def drop_through : List Char → List Char → Option (List Char)
  | [], pat => if pat.isEmpty then some [] else none
  | a :: rest, pat =>
    if starts_with (a :: rest) pat then some ((a :: rest).drop pat.length)
    else drop_through rest pat

/-- Fuel-indexed helper for last_piece. -/
def last_piece_fuel : Nat → List Char → List Char → List Char
  | 0, l, _ => l
  | fuel + 1, l, pat =>
    match drop_through l pat with
    | none => l
    | some suffix => last_piece_fuel fuel suffix pat

/-- Rust key.split(pat).last(): the suffix after the last non-overlapping
occurrence of pat (the whole string when pat does not occur). -/
def last_piece (l pat : List Char) : List Char :=
  last_piece_fuel l.length l pat

/-- The pattern "signing-key-" searched for in verify_request. -/
def signing_key_pat : List Char :=
  ['s', 'i', 'g', 'n', 'i', 'n', 'g', '-', 'k', 'e', 'y', '-']

/-- The "-bin" suffix of tonic binary metadata keys. -/
def bin_suffix : List Char := ['-', 'b', 'i', 'n']

/-- verify_request of src/server/src/main.rs: walk the binary metadata keys;
for each one strip "-bin", and when the remainder contains "signing-key-"
verify the key-id that follows the last such occurrence.  Ascii keys fall in
the silent arm of the Rust match and are not in this list. -/
def verify_request (km : KeyManagement) : List String → Except Status Unit
  | [] => .ok ()
  | name :: rest =>
    match strip_suffix_chars name.data bin_suffix with
    | some key =>
      if contains_sub key signing_key_pat then
        match verify_key km (String.mk (last_piece key signing_key_pat)) with
        | .error e => .error e
        | .ok _ => verify_request km rest
      else verify_request km rest
    | none => verify_request km rest

/-- The BastionLabState fields that fetch_data_frame touches. -/
structure ServerState where
  dataframes : List (String × Frame)
  keys : KeyManagement
  challenges : List (List Nat)
deriving DecidableEq

/-- fetch_data_frame of src/server/src/main.rs: challenge check, then
signed-key check, then registry read, then stream_data with chunk size 32.
The possibly updated challenge set is returned alongside the chunk list. -/
def fetch_data_frame (st : ServerState) (req : FetchReq) :
    Except Status (List Chunk × List (List Nat)) :=
  match check_challenge st.challenges req with
  | .error e => .error e
  | .ok challenges' =>
    match verify_request st.keys (req.binaryHeaders.map Prod.fst) with
    | .error e => .error e
    | .ok _ =>
      match get_df st.dataframes req.identifier with
      | .error e => .error e
      | .ok df => .ok (stream_data df 32, challenges')

/-- JwtClaims of bastionai_common/src/auth.rs. -/
structure JwtClaims where
  userid : Nat
  username : String
  exp : Nat
deriving DecidableEq

/-- AuthExtension of bastionai_common/src/auth.rs. -/
structure AuthExtension where
  claims : Option JwtClaims
deriving DecidableEq

/-- A request as the interceptor sees it: the raw bytes of the accesstoken
metadata header if present, and the extensions slot for AuthExtension
(none when no extension has been attached). -/
structure AuthReq where
  accesstoken : Option (List Nat)
  ext : Option AuthExtension
deriving DecidableEq

/-- tonic MetadataValue::to_str: fails unless every byte is visible ascii. -/
def header_to_str (bytes : List Nat) : Option String :=
  if bytes.all (fun b => 32 ≤ b && b ≤ 126) then
    some (String.mk (bytes.map Char.ofNat))
  else none

/-- auth_interceptor of bastionai_common/src/auth.rs.  The JWT_POLICY
singleton is the first argument: none when no jwt_key.pem was loaded, and
otherwise the composite jsonwebtoken::decode check (ES256 signature plus exp
validation) as a function returning the claims on success. -/
def auth_interceptor (jwt_policy : Option (String → Option JwtClaims))
    (req : AuthReq) : Except Status AuthReq :=
  match jwt_policy with
  | none => .ok req
  | some decode =>
    match req.accesstoken with
    | none => .ok { req with ext := some { claims := none } }
    | some bytes =>
      match header_to_str bytes with
      | none => .error (.invalidArgument "Invalid AccessToken header")
      | some t =>
        match decode t with
        | none => .error (.invalidArgument "Failed to decode AccessToken")
        | some claims => .ok { req with ext := some { claims := some claims } }

/-- Modelled from the spec: PlanSegment lives in composite_plan.rs, which is
not among the sources; section 3 describes a plan as an ordered sequence of
segments, with EntryPoint(identifier) the variant the evaluator must
recognize. -/
inductive PlanSegment where
  | entryPoint (identifier : String)
deriving DecidableEq

/-- Modelled from the spec: CompositePlan is an ordered sequence of
PlanSegment values (section 3). -/
abbrev CompositePlan := List PlanSegment

/-- ReferenceResponse message: identifier plus JSON-encoded schema header. -/
structure ReferenceResponse where
  identifier : String
  header : String
deriving DecidableEq

/-- run_query of src/server/src/main.rs.  serde_json plan parsing
(parse_plan), the plan evaluator CompositePlan::run (run_plan, from
composite_plan.rs which is not among the sources) and schema JSON
serialization (schema_json) are external and passed as parameters; the
fresh UUID drawn by insert_df is passed as uuid. -/
def run_query (parse_plan : String → Except String CompositePlan)
    (run_plan : CompositePlan → List (String × Frame) → Except Status Frame)
    (schema_json : Frame → Except String String) (uuid : String)
    (dataframes : List (String × Frame)) (composite_plan : String) :
    Except Status (ReferenceResponse × List (String × Frame)) :=
  match parse_plan composite_plan with
  | .error e =>
    .error (.invalidArgument
      ("Could not deserialize composite plan: " ++ e ++ composite_plan))
  | .ok plan =>
    match run_plan plan dataframes with
    | .error e => .error e
    | .ok res =>
      match schema_json res with
      | .error e =>
        .error (.internal
          ("Could not serialize result data frame header: " ++ e))
      | .ok header =>
        .ok ({ identifier := (insert_df dataframes uuid res).2,
               header := header },
          (insert_df dataframes uuid res).1)

namespace Polars

/-- SendChunk message of bastionlab_polars (data plus upload accessory
fields). -/
structure SendChunk where
  data : List Nat
  policy : String
  metadata : String
  savable : Bool
deriving DecidableEq

/-- The accumulation loop of bastionlab_polars unstream_data: data bytes,
policy and metadata concatenate across chunks, savable keeps the last
chunk's value; an Err item of the stream propagates. -/
def accumulate : List (Except Status SendChunk) →
    List Nat × String × String × Bool →
    Except Status (List Nat × String × String × Bool)
  | [], acc => .ok acc
  | .error e :: _, _ => .error e
  | .ok c :: rest, (cols, pol, meta, _) =>
    accumulate rest (cols ++ c.data, pol ++ c.policy, meta ++ c.metadata,
      c.savable)

/-- unstream_data of src/server/bastionlab_polars/src/serialization.rs; its
marker-splitting phase is byte-for-byte the one of
src/server/src/serialization.rs and is shared as unstream_core. -/
def unstream_data (stream : List (Except Status SendChunk)) :
    Except Status (List (List Nat) × String × String × Bool) :=
  match accumulate stream ([], "", "", false) with
  | .error e => .error e
  | .ok (cols, pol, meta, sav) => .ok (unstream_core cols, pol, meta, sav)

end Polars

end BastionLab

namespace BastionLab

/-! Challenge service (C3) -/

lemma new_challenge_spec : ∀ (rng challenges : List (List Nat))
    (c : List Nat) (challenges' : List (List Nat)),
    new_challenge challenges rng = some (c, challenges') →
    c ∉ challenges ∧ challenges' = c :: challenges := by
  intro rng
  induction rng with
  | nil => intro chal c chal' h; exact Option.noConfusion h
  | cons r rs ih =>
    intro chal c chal' h
    rw [new_challenge] at h
    by_cases hr : r ∈ chal
    · rw [if_pos hr] at h
      exact ih chal c chal' h
    · rw [if_neg hr] at h
      injection h with h'
      have h1 : r = c := congrArg Prod.fst h'
      have h2 : r :: chal = chal' := congrArg Prod.snd h'
      subst h1
      exact ⟨hr, h2.symm⟩

/-- C3: a value c returned by new_challenge was not in the set before and is
in it afterwards; consuming it once succeeds and removes it, consuming it a
second time fails with PermissionDenied "Invalid or reused challenge", and
consuming a value that was never minted fails the same way. -/
theorem challenge_single_use (rng challenges challenges' : List (List Nat))
    (c : List Nat)
    (h : new_challenge challenges rng = some (c, challenges')) :
    consume_challenge challenges' c = .ok challenges ∧
    consume_challenge challenges c =
      .error (.permissionDenied "Invalid or reused challenge") ∧
    ∀ (s : List (List Nat)) (v : List Nat), v ∉ s →
      consume_challenge s v =
        .error (.permissionDenied "Invalid or reused challenge") := by
  obtain ⟨hnot, rfl⟩ := new_challenge_spec rng challenges c challenges' h
  refine ⟨?_, ?_, ?_⟩
  · simp [consume_challenge, List.erase_cons_head]
  · simp [consume_challenge, hnot]
  · intro s v hv
    simp [consume_challenge, hv]

/-- C3 witness: minting with the first RNG draw [1] on the empty set returns
[1], and consuming it once succeeds, emptying the set. -/
theorem challenge_single_use_witness :
    new_challenge [] [[1]] = some ([1], [[1]]) ∧
    consume_challenge [[1]] [1] = .ok [] :=
  ⟨rfl, (challenge_single_use [[1]] [] [[1]] [1] rfl).1⟩

/-! Frame registry (C4) -/

/-- C4: get with the identifier insert_df returned yields the inserted
frame, and get with an identifier not in the registry fails with NotFound. -/
theorem registry_get_after_insert (dfs1 dfs2 : List (String × Frame))
    (id1 id2 : String) (df : Frame) (h : dfs2.lookup id2 = none) :
    get_df (insert_df dfs1 id1 df).1 (insert_df dfs1 id1 df).2 = .ok df ∧
    get_df dfs2 id2 =
      .error (.notFound ("Could not find dataframe: identifier=" ++ id2)) := by
  constructor
  · simp [get_df, insert_df, List.lookup]
  · simp [get_df, h]

/-- C4 witness: inserting [[2]] under the fresh uuid "a" into the empty
registry makes get return it, and get of the absent "b" is NotFound. -/
theorem registry_get_after_insert_witness :
    ([] : List (String × Frame)).lookup "b" = none ∧
    (get_df (insert_df [] "a" [[2]]).1 (insert_df [] "a" [[2]]).2 =
        .ok [[2]] ∧
      get_df [] "b" =
        .error (.notFound ("Could not find dataframe: identifier=" ++ "b"))) :=
  ⟨rfl, registry_get_after_insert [] [] "a" "b" [[2]] rfl⟩

/-! Token interceptor (C5, C6) -/

/-- C5 counterexample: with no decoding key configured the interceptor
returns the request unchanged, so no empty identity record is attached (the
extension slot stays none, not some of an empty AuthExtension). -/
theorem auth_disabled_cex :
    auth_interceptor none ⟨none, none⟩ = .ok ⟨none, none⟩ ∧
    auth_interceptor none ⟨none, none⟩ ≠
      .ok ⟨none, some { claims := none }⟩ := by
  constructor
  · rfl
  · decide

/-- C5 (amended): with no decoding key configured, the interceptor passes
every request through unchanged — it never rejects, and it attaches
nothing (in particular no empty identity record). -/
theorem auth_disabled_passthrough (req : AuthReq) :
    auth_interceptor none req = .ok req := rfl

/-- C6: with a decoding key configured, a request without accesstoken gets
an empty identity and passes; malformed header bytes give
InvalidArgument "Invalid AccessToken header"; a token the policy rejects
(bad ES256 signature or expired) gives
InvalidArgument "Failed to decode AccessToken"; a token the policy accepts
passes with its claims attached. -/
theorem auth_enabled_cases (decode : String → Option JwtClaims)
    (req : AuthReq) :
    (req.accesstoken = none →
      auth_interceptor (some decode) req =
        .ok { req with ext := some { claims := none } }) ∧
    (∀ bytes, req.accesstoken = some bytes → header_to_str bytes = none →
      auth_interceptor (some decode) req =
        .error (.invalidArgument "Invalid AccessToken header")) ∧
    (∀ bytes t, req.accesstoken = some bytes → header_to_str bytes = some t →
      decode t = none →
      auth_interceptor (some decode) req =
        .error (.invalidArgument "Failed to decode AccessToken")) ∧
    (∀ bytes t claims, req.accesstoken = some bytes →
      header_to_str bytes = some t → decode t = some claims →
      auth_interceptor (some decode) req =
        .ok { req with ext := some { claims := some claims } }) := by
  refine ⟨fun h => ?_, fun bytes h1 h2 => ?_, fun bytes t h1 h2 h3 => ?_,
    fun bytes t claims h1 h2 h3 => ?_⟩
  · simp [auth_interceptor, h]
  · simp [auth_interceptor, h1, h2]
  · simp [auth_interceptor, h1, h2, h3]
  · simp [auth_interceptor, h1, h2, h3]

/-- C6 witness: with a policy that rejects every token, a request without
accesstoken passes with an empty identity, and a request whose accesstoken
header byte 200 is not visible ascii is rejected as a bad header. -/
theorem auth_enabled_cases_witness :
    auth_interceptor (some (fun _ => none)) ⟨none, none⟩ =
      .ok ⟨none, some { claims := none }⟩ ∧
    auth_interceptor (some (fun _ => none)) ⟨some [200], none⟩ =
      .error (.invalidArgument "Invalid AccessToken header") :=
  ⟨(auth_enabled_cases (fun _ => none) ⟨none, none⟩).1 rfl,
   (auth_enabled_cases (fun _ => none) ⟨some [200], none⟩).2.1 [200] rfl
     (by decide)⟩

/-! Plan facade (C7) -/

/-- C7: when the composite-plan body does not parse, run_query fails with
InvalidArgument and the message carries the offending plan text (it is a
suffix of the message). -/
theorem run_query_malformed_plan
    (parse_plan : String → Except String CompositePlan)
    (run_plan : CompositePlan → List (String × Frame) → Except Status Frame)
    (schema_json : Frame → Except String String) (uuid : String)
    (dataframes : List (String × Frame)) (composite_plan e : String)
    (h : parse_plan composite_plan = .error e) :
    run_query parse_plan run_plan schema_json uuid dataframes composite_plan =
      .error (.invalidArgument
        ("Could not deserialize composite plan: " ++ e ++ composite_plan)) ∧
    ∃ pre, "Could not deserialize composite plan: " ++ e ++ composite_plan =
      pre ++ composite_plan :=
  ⟨by simp [run_query, h], ⟨"Could not deserialize composite plan: " ++ e, rfl⟩⟩

/-- C7 witness: a parser that rejects "not json" with message "x" makes
run_query fail with InvalidArgument ending in the offending text. -/
theorem run_query_malformed_plan_witness :
    (fun _ : String => (.error "x" : Except String CompositePlan)) "not json" =
      .error "x" ∧
    run_query (fun _ => .error "x") (fun _ _ => .error (.unknown ""))
        (fun _ => .ok "") "u" [] "not json" =
      .error (.invalidArgument
        ("Could not deserialize composite plan: " ++ "x" ++ "not json")) :=
  ⟨rfl,
   (run_query_malformed_plan (fun _ => .error "x")
     (fun _ _ => .error (.unknown "")) (fun _ => .ok "") "u" [] "not json" "x"
     rfl).1⟩

/-! Upload decode path (C8) -/

/-- C8 (code bug): when a column's bytes fail bincode deserialization, the
.unwrap() inside df_from_stream panics (modelled as none) instead of
returning an InvalidPayload error; here the single chunk [0] ++ MARKER
decodes to one column [0] on which the deserializer fails. -/
theorem df_from_stream_panics :
    df_from_stream Unit (fun _ => none) (fun _ => .ok [])
      [.ok ⟨[0, 91, 101, 110, 100, 93]⟩] = none := by
  rfl

/-! Polars upload stream (C10) -/

/-- C10: a stream of zero chunks decodes without error to no columns, empty
policy, empty metadata, and savable false. -/
theorem polars_unstream_empty :
    Polars.unstream_data [] = .ok ([], "", "", false) := rfl

end BastionLab

namespace BastionLab

/-! Fetch path (C2) -/

lemma check_challenge_ok (challenges challenges' : List (List Nat))
    (req : FetchReq) (h : check_challenge challenges req = .ok challenges') :
    (∀ c, req.binaryHeaders.lookup "challenge-bin" = some c →
      c ∈ challenges ∧ challenges' = challenges.erase c) ∧
    (req.binaryHeaders.lookup "challenge-bin" = none →
      challenges' = challenges) := by
  cases hl : req.binaryHeaders.lookup "challenge-bin" with
  | none =>
    simp only [check_challenge, hl] at h
    injection h with h
    exact ⟨fun c hc => Option.noConfusion hc, fun _ => h.symm⟩
  | some c0 =>
    simp only [check_challenge, hl, consume_challenge] at h
    by_cases hm : c0 ∈ challenges
    · rw [if_pos hm] at h
      injection h with h
      refine ⟨fun c hc => ?_, fun hn => Option.noConfusion hn⟩
      injection hc with hc
      subst hc
      exact ⟨hm, h.symm⟩
    · rw [if_neg hm] at h
      exact Except.noConfusion h

/-- C2 counterexample: a FetchDataFrame request that carries neither a
challenge-bin header nor any signing-key header is not rejected — with the
frame present it succeeds without consuming any challenge or verifying any
signature. -/
theorem fetch_no_auth_cex :
    fetch_data_frame
        { dataframes := [("id1", [[7]])], keys := { owners := [] },
          challenges := [] }
        { identifier := "id1", binaryHeaders := [] } =
      .ok ([⟨[7, 91, 101, 110, 100, 93]⟩], []) := by
  rfl

/-- C2 (amended): a FetchDataFrame call that succeeds has consumed a
previously minted unused challenge IF the request carries a challenge-bin
header (and left the set untouched otherwise), has passed verify_request
over every binary header it carries, and has read the referenced frame; a
request that supplies neither header is not rejected by these checks. -/
theorem fetch_success_requirements (st : ServerState) (req : FetchReq)
    (chunks : List Chunk) (challenges' : List (List Nat))
    (h : fetch_data_frame st req = .ok (chunks, challenges')) :
    (∀ c, req.binaryHeaders.lookup "challenge-bin" = some c →
      c ∈ st.challenges ∧ challenges' = st.challenges.erase c) ∧
    (req.binaryHeaders.lookup "challenge-bin" = none →
      challenges' = st.challenges) ∧
    verify_request st.keys (req.binaryHeaders.map Prod.fst) = .ok () ∧
    ∃ df, get_df st.dataframes req.identifier = .ok df ∧
      chunks = stream_data df 32 := by
  unfold fetch_data_frame at h
  split at h
  next e heq => exact Except.noConfusion h
  next chals heq =>
    split at h
    next e heq2 => exact Except.noConfusion h
    next u heq2 =>
      split at h
      next e heq3 => exact Except.noConfusion h
      next df heq3 =>
        injection h with h'
        have h1 : stream_data df 32 = chunks := congrArg Prod.fst h'
        have h2 : chals = challenges' := congrArg Prod.snd h'
        subst h2
        obtain ⟨ha, hb⟩ := check_challenge_ok st.challenges chals req heq
        cases u
        exact ⟨ha, hb, heq2, ⟨df, heq3, h1.symm⟩⟩

/-- C2 witness: a request with a valid challenge and a known signing key
succeeds, and the theorem recovers that its challenge was in the set and was
removed. -/
theorem fetch_success_requirements_witness :
    fetch_data_frame
        { dataframes := [("a", [[1]])], keys := { owners := ["me"] },
          challenges := [[9]] }
        { identifier := "a",
          binaryHeaders := [("challenge-bin", [9]), ("signing-key-me-bin", [0])] } =
      .ok ([⟨[1, 91, 101, 110, 100, 93]⟩], []) ∧
    ([9] ∈ [[9]] ∧ ([] : List (List Nat)) = List.erase [[9]] [9]) :=
  ⟨rfl,
   (fetch_success_requirements
       { dataframes := [("a", [[1]])], keys := { owners := ["me"] },
         challenges := [[9]] }
       { identifier := "a",
         binaryHeaders := [("challenge-bin", [9]), ("signing-key-me-bin", [0])] }
       [⟨[1, 91, 101, 110, 100, 93]⟩] [] rfl).1 [9] rfl⟩

end BastionLab

namespace BastionLab

/-! Chunk codec: marker-occurrence machinery (C1, C9) -/

/-- Marker occurrence positions of a buffer, structurally. -/
def occ : List Nat → List Nat
  | [] => []
  | x :: xs =>
    (if (x :: xs).take 5 = pattern then [0] else []) ++ (occ xs).map (· + 1)

/-- The marker positions of the encoded byte stream of a frame: the running
offset of the end of each column. -/
def pos : List (List Nat) → List Nat
  | [] => []
  | c :: rest => c.length :: (pos rest).map (· + (c.length + 5))

/-- Decidable scan: does a column contain a marker occurrence. -/
def hasMarker (c : List Nat) : Bool :=
  (List.range c.length).any (fun i => decide ((c.drop i).take 5 = pattern))

lemma occ_cons (x : Nat) (xs : List Nat) :
    occ (x :: xs) =
      (if (x :: xs).take 5 = pattern then [0] else []) ++ (occ xs).map (· + 1) := by
  simp only [occ]

lemma take_append_self (l t : List Nat) : (l ++ t).take l.length = l := by
  rw [List.take_append_eq_append_take]
  simp

lemma occ_short : ∀ l : List Nat, l.length < 5 → occ l = [] := by
  intro l
  induction l with
  | nil => intro _; rfl
  | cons x xs ih =>
    intro h
    rw [occ_cons]
    have h1 : ((x :: xs).take 5).length < 5 := by
      rw [List.length_take]
      simp only [List.length_cons] at h ⊢
      omega
    have h2 : (x :: xs).take 5 ≠ pattern := by
      intro he
      rw [he] at h1
      simp [pattern] at h1
    rw [if_neg h2, ih (by simp only [List.length_cons] at h; omega)]
    rfl

lemma no_marker_window (c : List Nat) (h : hasMarker c = false) :
    ∀ i, (c.drop i).take 5 ≠ pattern := by
  intro i hi
  rcases lt_or_ge i c.length with hlt | hge
  · have := (List.any_eq_false.mp h) i (List.mem_range.mpr hlt)
    simp [hi] at this
  · rw [List.drop_eq_nil_of_le hge] at hi
    simp [pattern] at hi

lemma pattern_take_ne_drop (a : Nat) (h1 : 1 ≤ a) (h2 : a ≤ 4) :
    pattern.take (5 - a) ≠ pattern.drop a := by
  interval_cases a <;> decide

lemma take5_append_ne (c T : List Nat) (hne : c ≠ [])
    (hc : c.take 5 ≠ pattern) : (c ++ (pattern ++ T)).take 5 ≠ pattern := by
  intro h
  rw [List.take_append_eq_append_take] at h
  rcases le_or_lt 5 c.length with hlen | hlen
  · rw [Nat.sub_eq_zero_of_le hlen] at h
    simp only [List.take_zero, List.append_nil] at h
    exact hc h
  · have ha1 : 1 ≤ c.length := List.length_pos.mpr hne
    rw [List.take_of_length_le (le_of_lt hlen)] at h
    rw [List.take_append_eq_append_take] at h
    have hz : 5 - c.length - pattern.length = 0 := by
      simp only [pattern, List.length_cons, List.length_nil]
      omega
    rw [hz, List.take_zero, List.append_nil] at h
    have hd := congrArg (List.drop c.length) h
    rw [List.drop_left] at hd
    exact pattern_take_ne_drop c.length ha1 (by omega) hd

lemma occ_pattern_append (T : List Nat) :
    occ (pattern ++ T) = 0 :: (occ T).map (· + 5) := by
  have c2 : (101 :: 110 :: 100 :: 93 :: T).take 5 ≠ pattern := by
    intro h; injection h with h1 _; exact absurd h1 (by decide)
  have c3 : (110 :: 100 :: 93 :: T).take 5 ≠ pattern := by
    intro h; injection h with h1 _; exact absurd h1 (by decide)
  have c4 : (100 :: 93 :: T).take 5 ≠ pattern := by
    intro h; injection h with h1 _; exact absurd h1 (by decide)
  have c5 : (93 :: T).take 5 ≠ pattern := by
    intro h; injection h with h1 _; exact absurd h1 (by decide)
  have c1 : ((91 : Nat) :: 101 :: 110 :: 100 :: 93 :: T).take 5 = pattern := rfl
  show occ (91 :: 101 :: 110 :: 100 :: 93 :: T) = 0 :: (occ T).map (· + 5)
  rw [occ_cons, occ_cons, occ_cons, occ_cons, occ_cons,
    if_pos c1, if_neg c2, if_neg c3, if_neg c4, if_neg c5]
  simp only [List.nil_append, List.singleton_append, List.map_map]
  have hfun : ((fun v => v + 1) ∘ ((fun v => v + 1) ∘ ((fun v => v + 1) ∘
      ((fun v => v + 1) ∘ (fun v => v + 1))))) = (fun v : Nat => v + 5) := by
    funext v
    simp only [Function.comp_apply]
  rw [hfun]

lemma occ_append (c T : List Nat) (hc : ∀ i, (c.drop i).take 5 ≠ pattern) :
    occ (c ++ (pattern ++ T)) = c.length :: (occ T).map (· + (c.length + 5)) := by
  induction c with
  | nil =>
    simp only [List.nil_append, List.length_nil, Nat.zero_add]
    exact occ_pattern_append T
  | cons b c' ih =>
    have hc' : ∀ i, (c'.drop i).take 5 ≠ pattern := fun i => by
      have := hc (i + 1)
      rwa [List.drop_succ_cons] at this
    have h0 : (b :: c').take 5 ≠ pattern := by
      have := hc 0
      rwa [List.drop_zero] at this
    have hcond : (b :: (c' ++ (pattern ++ T))).take 5 ≠ pattern :=
      take5_append_ne (b :: c') T (List.cons_ne_nil b c') h0
    show occ (b :: (c' ++ (pattern ++ T))) = _
    rw [occ_cons, if_neg hcond, ih hc']
    simp only [List.nil_append, List.map_cons, List.map_map, List.length_cons]
    congr 1

end BastionLab

namespace BastionLab

lemma encode_cons (c : List Nat) (rest : List (List Nat)) :
    encode_bytes (c :: rest) = c ++ (pattern ++ encode_bytes rest) := by
  simp [encode_bytes, df_to_bytes, List.append_assoc]

lemma occ_encode : ∀ df : List (List Nat), (∀ c ∈ df, hasMarker c = false) →
    occ (encode_bytes df) = pos df := by
  intro df
  induction df with
  | nil => intro _; rfl
  | cons c rest ih =>
    intro h
    rw [encode_cons,
      occ_append c _ (no_marker_window c (h c (List.mem_cons_self c rest))),
      ih (fun d hd => h d (List.mem_cons_of_mem c hd))]
    rfl

lemma filter_sentinel (P : Nat → Prop) [DecidablePred P] : ∀ l : List Nat,
    (l.map (fun i => if P i then i else 0)).filter (fun v => v ≠ 0) =
      (l.filter (fun i => decide (P i))).filter (fun v => v ≠ 0) := by
  intro l
  induction l with
  | nil => rfl
  | cons a l ih =>
    have ih' := ih
    rw [List.filter_filter] at ih'
    simp only [ne_eq, decide_not] at ih'
    by_cases hp : P a
    · by_cases ha : a = 0
      · subst ha
        simp [hp, ih']
      · simp [hp, ha, ih']
    · by_cases ha : a = 0
      · subst ha
        simp [hp, ih']
      · simp [hp, ha, ih']

lemma occ_eq_range_filter : ∀ l : List Nat,
    (List.range (l.length + 1 - 5)).filter
      (fun i => decide ((l.drop i).take 5 = pattern)) = occ l := by
  intro l
  induction l with
  | nil => rfl
  | cons x xs ih =>
    rcases Nat.lt_or_ge xs.length 4 with hlen | hlen
    · have hN : (x :: xs).length + 1 - 5 = 0 := by
        simp only [List.length_cons]
        omega
      rw [hN, occ_short (x :: xs) (by simp only [List.length_cons]; omega)]
      rfl
    · have hN : (x :: xs).length + 1 - 5 = (xs.length + 1 - 5) + 1 := by
        simp only [List.length_cons]
        omega
      rw [hN, List.range_succ_eq_map, occ_cons]
      rw [List.filter_cons]
      rw [List.filter_map]
      have hps : ((fun i => decide (((x :: xs).drop i).take 5 = pattern)) ∘
          Nat.succ) = fun i => decide ((xs.drop i).take 5 = pattern) := by
        funext i
        simp [Function.comp, List.drop_succ_cons]
      rw [hps, ih]
      by_cases hx : (x :: xs).take 5 = pattern
      · have h5 : decide (((x :: xs).drop 0).take 5 = pattern) = true := by
          rw [List.drop_zero]
          exact decide_eq_true hx
        rw [if_pos hx, h5]
        simp [Nat.succ_eq_add_one]
      · have h5 : decide (((x :: xs).drop 0).take 5 = pattern) = false := by
          rw [List.drop_zero]
          exact decide_eq_false hx
        rw [if_neg hx, h5]
        simp [Nat.succ_eq_add_one]

lemma marker_indexes_eq (l : List Nat) :
    marker_indexes l = (occ l).filter (fun v => v ≠ 0) := by
  unfold marker_indexes
  rw [filter_sentinel (fun i => (l.drop i).take 5 = pattern)]
  rw [occ_eq_range_filter]

lemma pos_filter (c : List Nat) (rest : List (List Nat)) (hc : c.length ≠ 0) :
    (pos (c :: rest)).filter (fun v => v ≠ 0) = pos (c :: rest) := by
  apply List.filter_eq_self.mpr
  intro a ha
  simp only [pos, List.mem_cons] at ha
  rcases ha with h | h
  · subst h
    simpa using hc
  · obtain ⟨y, _, rfl⟩ := List.mem_map.mp h
    simp only [decide_eq_true_eq, ne_eq]
    omega

end BastionLab

namespace BastionLab

lemma flatten_chunks_fuel : ∀ (fuel k : Nat) (l : List Nat), 1 ≤ k →
    l.length ≤ fuel → (chunks_fuel fuel k l).flatten = l := by
  intro fuel
  induction fuel with
  | zero =>
    intro k l _ hl
    cases l with
    | nil => rfl
    | cons x xs => simp at hl
  | succ fuel ih =>
    intro k l hk hl
    cases l with
    | nil => rfl
    | cons x xs =>
      show ((x :: xs).take k :: chunks_fuel fuel k ((x :: xs).drop k)).flatten
        = x :: xs
      rw [List.flatten_cons,
        ih k ((x :: xs).drop k) hk
          (by rw [List.length_drop]; simp only [List.length_cons] at hl ⊢; omega)]
      exact List.take_append_drop k (x :: xs)

lemma flatten_chunksOf (k : Nat) (l : List Nat) (hk : 1 ≤ k) :
    (chunksOf k l).flatten = l :=
  flatten_chunks_fuel l.length k l hk le_rfl

lemma accumulate_map_ok : ∀ (cs : List Chunk) (acc : List Nat),
    accumulate_chunks (cs.map Except.ok) acc =
      .ok (acc ++ (cs.map Chunk.data).flatten) := by
  intro cs
  induction cs with
  | nil => intro acc; simp [accumulate_chunks]
  | cons c rest ih =>
    intro acc
    show accumulate_chunks (rest.map Except.ok) (acc ++ c.data) = _
    rw [ih (acc ++ c.data)]
    simp [List.append_assoc]

lemma stream_chunks_data (df : Frame) (k : Nat) :
    (stream_data df k).map Chunk.data = chunksOf k (encode_bytes df) := by
  unfold stream_data
  rw [List.map_map]
  have : (Chunk.data ∘ Chunk.mk) = id := rfl
  rw [this, List.map_id]

lemma slice_tail : ∀ (rest : List (List Nat)) (b : Nat) (S : List Nat),
    b ≠ 0 → S.drop (b + 5) = encode_bytes rest →
    ((b :: (pos rest).map (· + (b + 5))).zip ((pos rest).map (· + (b + 5)))).map
        (slice_at S) = rest := by
  intro rest
  induction rest with
  | nil => intro b S _ _; rfl
  | cons d rest' ih =>
    intro b S hb hS
    show ((b :: (d.length :: (pos rest').map (· + (d.length + 5))).map
        (· + (b + 5))).zip
      ((d.length :: (pos rest').map (· + (d.length + 5))).map (· + (b + 5)))).map
        (slice_at S) = d :: rest'
    rw [List.map_cons, List.map_map, List.zip_cons_cons, List.map_cons]
    have hhead : slice_at S (b, d.length + (b + 5)) = d := by
      unfold slice_at
      rw [if_neg hb]
      have hm : d.length + (b + 5) - (b + 5) = d.length := by omega
      rw [hm, hS, encode_cons, take_append_self]
    have hfun : ((· + (b + 5)) ∘ (· + (d.length + 5))) =
        (fun x : Nat => x + (d.length + (b + 5) + 5)) := by
      funext x
      simp only [Function.comp_apply]
      omega
    have hm0 : d.length + (b + 5) ≠ 0 := by omega
    have hS' : S.drop (d.length + (b + 5) + 5) = encode_bytes rest' := by
      have he : d.length + (b + 5) + 5 = (b + 5) + (d.length + 5) := by omega
      rw [he, ← List.drop_drop, hS, encode_cons]
      rw [show d.length + 5 = (d ++ pattern).length from by simp [pattern]]
      rw [← List.append_assoc]
      exact List.drop_left (d ++ pattern) (encode_bytes rest')
    rw [hfun, hhead]
    exact congrArg (List.cons d) (ih (d.length + (b + 5)) S hm0 hS')

end BastionLab

namespace BastionLab

lemma unstream_core_encode (df : Frame) (hm : ∀ c ∈ df, hasMarker c = false)
    (hh : df.head? ≠ some []) : unstream_core (encode_bytes df) = df := by
  cases df with
  | nil => rfl
  | cons c rest =>
    have hne : c ≠ [] := by
      intro h
      apply hh
      rw [h]
      rfl
    have hlen : c.length ≠ 0 := by
      have := List.length_pos.mpr hne
      omega
    have hmi : marker_indexes (encode_bytes (c :: rest)) = pos (c :: rest) := by
      rw [marker_indexes_eq, occ_encode (c :: rest) hm, pos_filter c rest hlen]
    unfold unstream_core
    rw [hmi]
    show ((0 :: (c.length :: (pos rest).map (· + (c.length + 5)))).zip
        (c.length :: (pos rest).map (· + (c.length + 5)))).map
        (slice_at (encode_bytes (c :: rest))) = c :: rest
    rw [List.zip_cons_cons, List.map_cons]
    have hS : (encode_bytes (c :: rest)).drop (c.length + 5) =
        encode_bytes rest := by
      rw [encode_cons,
        show c.length + 5 = (c ++ pattern).length from by simp [pattern],
        ← List.append_assoc]
      exact List.drop_left (c ++ pattern) (encode_bytes rest)
    have hhead : slice_at (encode_bytes (c :: rest)) (0, c.length) = c := by
      show (encode_bytes (c :: rest)).take (c.length - 0) = c
      rw [Nat.sub_zero, encode_cons, take_append_self]
    rw [hhead]
    exact congrArg (List.cons c) (slice_tail rest c.length _ hlen hS)

/-- C1 (amended): for every frame none of whose serialized columns contains
the 5-byte MARKER and whose first column's serialization is nonempty,
decoding the chunk stream produced by encoding with any chunk size k of at
least 1 yields the frame again. -/
theorem chunk_codec_roundtrip (df : Frame) (k : Nat) (hk : 1 ≤ k)
    (hm : ∀ c ∈ df, hasMarker c = false) (hh : df.head? ≠ some []) :
    unstream_data ((stream_data df k).map Except.ok) = .ok df := by
  have hacc : accumulate_chunks ((stream_data df k).map Except.ok) [] =
      .ok (encode_bytes df) := by
    rw [accumulate_map_ok, stream_chunks_data, flatten_chunksOf k _ hk,
      List.nil_append]
  unfold unstream_data
  simp only [hacc]
  rw [unstream_core_encode df hm hh]

/-- C1 counterexample: the round trip fails as soon as the first column's
bytes are empty (the marker it produces sits at offset 0 and is ignored by
the decoder), and as soon as a column's bytes contain the MARKER (the
decoder splits inside the column): [[], []] decodes back as one column
holding the marker bytes, and the single column 88 ++ MARKER decodes back
as two columns [88] and []. -/
theorem chunk_codec_roundtrip_cex :
    unstream_data ((stream_data [[], []] 1).map Except.ok) =
      .ok [[91, 101, 110, 100, 93]] ∧
    ([[91, 101, 110, 100, 93]] : Frame) ≠ [[], []] ∧
    unstream_data ((stream_data [[88, 91, 101, 110, 100, 93]] 1).map
        Except.ok) = .ok [[88], []] ∧
    ([[88], []] : Frame) ≠ [[88, 91, 101, 110, 100, 93]] := by
  refine ⟨by decide, by decide, by decide, by decide⟩

/-- C1 witness: the round trip at the two-column frame [[1], [2]] with chunk
size 2. -/
theorem chunk_codec_roundtrip_witness :
    1 ≤ 2 ∧
    unstream_data ((stream_data [[1], [2]] 2).map Except.ok) =
      .ok [[1], [2]] :=
  ⟨by decide,
   chunk_codec_roundtrip [[1], [2]] 2 (by decide) (by decide) (by decide)⟩

/-- The decoder's splitting in the (amended) spec's words: the boundaries
are the marker occurrences at positive offsets, scanned over the whole
buffer; the first slice starts at offset 0, every later slice starts five
bytes past the previous boundary, and bytes after the last boundary are
dropped. -/
def unstream_spec (s : List Nat) : List (List Nat) :=
  ((0 :: (List.range s.length).filter
        (fun i => decide ((s.drop i).take 5 = pattern) && decide (1 ≤ i))).zip
      ((List.range s.length).filter
        (fun i => decide ((s.drop i).take 5 = pattern) && decide (1 ≤ i)))).map
    (slice_at s)

lemma window_false_of_ge (l : List Nat) (i : Nat) (hi : l.length + 1 - 5 ≤ i) :
    decide ((l.drop i).take 5 = pattern) = false := by
  apply decide_eq_false
  intro h
  have hlen := congrArg List.length h
  rw [List.length_take, List.length_drop] at hlen
  have hp : pattern.length = 5 := rfl
  rw [hp] at hlen
  rw [Nat.min_def] at hlen
  split_ifs at hlen with hc
  · omega
  · omega

lemma range_filter_ext (l : List Nat) :
    (List.range l.length).filter
        (fun i => decide ((l.drop i).take 5 = pattern) && decide (1 ≤ i)) =
      ((List.range (l.length + 1 - 5)).filter
        (fun i => decide ((l.drop i).take 5 = pattern))).filter
        (fun v => v ≠ 0) := by
  rw [List.filter_filter]
  have hN : l.length = (l.length + 1 - 5) + (l.length - (l.length + 1 - 5)) := by
    omega
  conv_lhs => rw [hN]
  rw [List.range_add, List.filter_append]
  have h2 : (((List.range (l.length - (l.length + 1 - 5))).map
        (fun x => (l.length + 1 - 5) + x)).filter
      (fun i => decide ((l.drop i).take 5 = pattern) && decide (1 ≤ i))) = [] := by
    apply List.filter_eq_nil_iff.mpr
    intro a ha
    obtain ⟨x, _, rfl⟩ := List.mem_map.mp ha
    rw [window_false_of_ge l _ (Nat.le_add_right _ _)]
    simp
  rw [h2, List.append_nil]
  apply List.filter_congr
  intro x _
  rw [Bool.and_comm]
  congr 1
  exact decide_eq_decide.mpr (by omega)

lemma marker_indexes_spec (l : List Nat) :
    (List.range l.length).filter
        (fun i => decide ((l.drop i).take 5 = pattern) && decide (1 ≤ i)) =
      marker_indexes l := by
  rw [range_filter_ext, occ_eq_range_filter, ← marker_indexes_eq]

/-- C9 (amended): the decoded column list consists of the substrings between
the marker occurrences at positive offsets — the implicit leading boundary
is offset 0, each later slice starts at previous-boundary + 5, bytes after
the last boundary are discarded, and a buffer with no positive-offset
occurrence (in particular a buffer that is exactly one marker at offset 0)
yields an empty column list; an occurrence at offset 0 is not a boundary
and its bytes land inside the first slice. -/
theorem unstream_core_spec (s : List Nat) :
    unstream_core s = unstream_spec s := by
  unfold unstream_core unstream_spec
  rw [marker_indexes_spec]

/-- C9 counterexample: a buffer that begins with the MARKER at offset 0 does
not yield an empty first column — MARKER ++ 88 ++ MARKER decodes to the one
column MARKER ++ 88 rather than the claimed [] and [88], and the bare MARKER
decodes to no columns rather than one empty column. -/
theorem unstream_marker_at_zero_cex :
    unstream_core [91, 101, 110, 100, 93, 88, 91, 101, 110, 100, 93] =
      [[91, 101, 110, 100, 93, 88]] ∧
    unstream_core [91, 101, 110, 100, 93, 88, 91, 101, 110, 100, 93] ≠
      [[], [88]] ∧
    unstream_core [91, 101, 110, 100, 93] = [] ∧
    unstream_core [91, 101, 110, 100, 93] ≠ [[]] := by
  refine ⟨by decide, by decide, by decide, by decide⟩

end BastionLab
